import Mathlib

/-!
Verification of the Rip-Chat signaling server (src/server.py) against its
specification.  The server keeps three global maps — `rooms`, `user_data`
and `rate_limits` — and mutates them from socket event handlers.  We embed
the registry state as association lists (Python dicts preserve insertion
order, which the spec relies on for the "existing users" snapshot), strings
as `List Char`, and each handler as a pure function from the state (plus the
current wall-clock time, threaded explicitly) to the new state and the list
of events emitted over the transport.

Socket ids are modelled as `Nat`; `0` stands for a falsy id (Python's empty
string), every real id is nonzero.  Opaque signaling payloads are modelled
by `Opaque`: an identity tag plus a Python-truthiness bit, which is all the
relay code ever observes of them.
-/

namespace RipChat

abbrev Str := List Char

/-- Configuration constant from server.py line 22. -/
def MAX_USERS_PER_ROOM : Nat := 10

/-- Configuration constant from server.py line 24. -/
def MAX_USERNAME_LENGTH : Nat := 20

/-- Configuration constant from server.py line 25. -/
def MIN_USERNAME_LENGTH : Nat := 1

/-- Configuration constant from server.py line 26 (seconds). -/
def RATE_LIMIT_WINDOW : Nat := 5

/-- Configuration constant from server.py line 27. -/
def RATE_LIMIT_MAX_ACTIONS : Nat := 10

/-- Configuration constant from server.py line 28 (seconds). -/
def ROOM_INACTIVE_TIMEOUT : Nat := 3600

/-! ### Association lists with Python-dict semantics -/

/-- Lookup in an association list (first binding wins, as in a dict with
unique keys). -/
def alookup [DecidableEq α] : List (α × β) → α → Option β
  | [], _ => none
  | (k, v) :: rest, key => if k = key then some v else alookup rest key

/-- `d[k] = v`: replace in place when the key is present (Python dicts keep
the original insertion position), append otherwise. -/
def alistSet [DecidableEq α] (l : List (α × β)) (key : α) (val : β) :
    List (α × β) :=
  if (alookup l key).isSome then
    l.map (fun p => if p.1 = key then (key, val) else p)
  else
    l ++ [(key, val)]

/-- `del d[k]`. -/
def alistErase [DecidableEq α] (l : List (α × β)) (key : α) : List (α × β) :=
  l.filter (fun p => if p.1 = key then false else true)

/-! ### Strings and Python primitives -/

/-- The whitespace characters `str.strip()` removes (ASCII range). -/
def pyIsSpace (c : Char) : Bool :=
  c = ' ' || c = '\t' || c = '\n' || c = '\r' || c = '\x0b' || c = '\x0c'

/-- Python `str.strip()`. -/
def pyStrip (s : Str) : Str :=
  ((s.dropWhile pyIsSpace).reverse.dropWhile pyIsSpace).reverse

/-- Python `str.upper()` on the ASCII range used by room codes. -/
def pyUpper (s : Str) : Str := s.map Char.toUpper

/-- Python `str.lower()` on the ASCII range used by usernames. -/
def pyLower (s : Str) : Str := s.map Char.toLower

/-- Membership in ALLOWED_USERNAME_CHARS (server.py line 29): ASCII letters,
digits, underscore, hyphen and space. -/
def allowedChar (c : Char) : Bool :=
  c.isAlpha || c.isDigit || c = '_' || c = '-' || c = ' '

/-- A Python value as seen by the validation code: `None`, a string, or a
non-string value of which only the truthiness is ever observed. -/
inductive PyVal where
  | vnone
  | vstr (s : Str)
  | vother (truthy : Bool)
deriving DecidableEq, Repr

/-- `data.get(key, '')`: a missing key defaults to the empty string. -/
def getD (v : Option PyVal) : PyVal := v.getD (.vstr [])

/-! ### Validation (sanitize_username, server.py lines 48-71) -/

deriving instance DecidableEq for Except

def msgUsernameRequired : Str := "Username is required".data
def msgTooShort : Str := "Username is too short".data
def msgInvalidChars : Str := "Username contains invalid characters".data
def msgOnlySpaces : Str := "Username cannot be only spaces".data
def msgTooMany : Str := "Too many actions. Please slow down.".data
def msgInvalidRequest : Str := "Invalid request".data
def msgRoomCodeRequired : Str := "Room code is required".data
def msgBadRoomCodeFormat : Str := "Invalid room code format".data
def msgRoomNotFound : Str := "Room not found. Check the code and try again.".data
def msgRoomFull : Str := "Room is full (max 10 users).".data

def msgUsernameTaken (u : Str) : Str :=
  "Username \"".data ++ u ++ "\" is already taken in this room.".data

/-- server.py lines 48-71.  Returns the sanitized username or the error
message of the Python `(None, error)` pair. -/
def sanitize_username (v : PyVal) : Except Str Str :=
  match v with
  | .vnone => .error msgUsernameRequired
  | .vother _ => .error msgUsernameRequired
  | .vstr s =>
    if s = [] then .error msgUsernameRequired
    else
      let s1 := pyStrip s
      if s1.length < MIN_USERNAME_LENGTH then .error msgTooShort
      else
        let s2 := if s1.length > MAX_USERNAME_LENGTH
                  then s1.take MAX_USERNAME_LENGTH else s1
        if !(s2.all allowedChar) then .error msgInvalidChars
        else if s2.filter (fun c => if c = ' ' then false else true) = [] then
          .error msgOnlySpaces
        else .ok s2

/-! ### Rate limiting (check_rate_limit, server.py lines 85-107) -/

structure RateEntry where
  last_action : Nat
  action_count : Nat
deriving DecidableEq, Repr

/-- server.py lines 85-107.  Returns `(is_limited, new rate_limits)`. -/
def check_rate_limit (t : Nat) (sid : Nat) (rl : List (Nat × RateEntry)) :
    Bool × List (Nat × RateEntry) :=
  match alookup rl sid with
  | none => (false, alistSet rl sid ⟨t, 1⟩)
  | some r =>
    if t - r.last_action > RATE_LIMIT_WINDOW then
      (false, alistSet rl sid ⟨t, 1⟩)
    else
      (decide (r.action_count + 1 > RATE_LIMIT_MAX_ACTIONS),
       alistSet rl sid ⟨t, r.action_count + 1⟩)

/-! ### Registry state -/

/-- A member record stored in `rooms[code]['users'][sid]`
(server.py lines 252-257, 343-347). -/
structure UserEntry where
  username : Str
  socketId : Nat
  muted : Bool
deriving DecidableEq, Repr

/-- A room record stored in `rooms[code]` (server.py line 17). -/
structure Room where
  users : List (Nat × UserEntry)
  created_at : Nat
  last_activity : Nat
deriving DecidableEq, Repr

/-- A record stored in `user_data[sid]` (server.py line 18). -/
structure UserData where
  username : Str
  room_code : Str
  joined_at : Nat
deriving DecidableEq, Repr

/-- The three global maps of server.py lines 17-19. -/
structure ServerState where
  rooms : List (Str × Room)
  user_data : List (Nat × UserData)
  rate_limits : List (Nat × RateEntry)
deriving DecidableEq, Repr

/-! ### Emitted events -/

inductive EmitTarget where
  /-- `emit(...)` with no `to=`: goes back to the calling connection. -/
  | caller
  /-- `emit(..., to=room_code, skip_sid=...)`. -/
  | room (code : Str) (skip : Option Nat)
  /-- `emit(..., to=sid)`. -/
  | direct (sid : Nat)
deriving DecidableEq, Repr

/-- An opaque signaling payload: the relay only observes identity (`tag`)
and Python truthiness. -/
structure Opaque where
  truthy : Bool
  tag : Nat
deriving DecidableEq, Repr

inductive EventMsg where
  | errorMsg (msg : Str)
  | roomJoined (roomCode : Str) (username : Str) (existingUsers : List UserEntry)
  | userJoined (username : Str) (socketId : Nat) (muted : Bool)
  | userLeft (socketId : Nat) (username : Str)
  | userMuteChanged (socketId : Nat) (muted : Bool)
  | offerEvt (offer : Opaque) (fromId : Nat) (fromUsername : Str)
  | answerEvt (answer : Opaque) (fromId : Nat)
  | iceEvt (candidate : Option Opaque) (fromId : Nat)
deriving DecidableEq, Repr

structure Emission where
  event : EventMsg
  target : EmitTarget
deriving DecidableEq, Repr

/-! ### Leaving (handle_user_leave, server.py lines 143-182) -/

/-- server.py lines 143-182.  `t` is the wall-clock time used by
`update_room_activity`. -/
def handle_user_leave (t : Nat) (sid : Nat) (notify : Bool)
    (st : ServerState) : ServerState × List Emission :=
  match alookup st.user_data sid with
  | none => (st, [])
  | some ud =>
    let rc := ud.room_code
    let step : List (Str × Room) × List Emission :=
      if rc = [] then (st.rooms, [])
      else
        match alookup st.rooms rc with
        | none => (st.rooms, [])
        | some room =>
          let users1 := if (alookup room.users sid).isSome
                        then alistErase room.users sid else room.users
          let ems := if notify
                     then [⟨.userLeft sid ud.username, .room rc none⟩] else []
          if users1 = [] then
            (alistErase st.rooms rc, ems)
          else
            (alistSet st.rooms rc
               { room with users := users1, last_activity := t }, ems)
    ({ rooms := step.1,
       user_data := alistErase st.user_data sid,
       rate_limits := alistErase st.rate_limits sid }, step.2)

/-! ### Joining (handle_join_room, server.py lines 280-373) -/

/-- server.py lines 74-82. -/
def is_username_taken (st : ServerState) (room_code : Str) (username : Str)
    (exclude_sid : Nat) : Bool :=
  match alookup st.rooms room_code with
  | none => false
  | some room =>
    room.users.any (fun p =>
      (if p.1 = exclude_sid then false else true) &&
      pyLower p.2.username = pyLower username)

/-- The `join-room` event payload: a dict with optional `roomCode` and
`username` keys (`none` for an absent key); the whole payload is `none`
when `data` is absent, falsy or not a dict. -/
structure JoinData where
  roomCode : Option PyVal
  username : Option PyVal
deriving DecidableEq, Repr

/-- server.py lines 280-373.  NOTE the aliasing in the source: the local
`room` is bound to the dict object *before* the implicit
`handle_user_leave`, and all subsequent mutation goes through that alias.
If the implicit leave deleted the room (the caller was its sole member and
rejoined the same code), the insertion mutates a dict no longer reachable
from `rooms`, which the embedding renders as the `none` branch of the
second match: `rooms` is left unchanged while `user_data` records the
membership. -/
def handle_join_room (t : Nat) (sid : Nat) (data : Option JoinData)
    (st : ServerState) : ServerState × List Emission :=
  let gate := check_rate_limit t sid st.rate_limits
  let st1 : ServerState := { st with rate_limits := gate.2 }
  if gate.1 then (st1, [⟨.errorMsg msgTooMany, .caller⟩])
  else
    match data with
    | none => (st1, [⟨.errorMsg msgInvalidRequest, .caller⟩])
    | some d =>
      match getD d.roomCode with
      | .vnone => (st1, [⟨.errorMsg msgRoomCodeRequired, .caller⟩])
      | .vother _ => (st1, [⟨.errorMsg msgRoomCodeRequired, .caller⟩])
      | .vstr rcRaw =>
        if rcRaw = [] then (st1, [⟨.errorMsg msgRoomCodeRequired, .caller⟩])
        else
          let rc := pyStrip (pyUpper rcRaw)
          if rc.length ≠ 6 then
            (st1, [⟨.errorMsg msgBadRoomCodeFormat, .caller⟩])
          else
            match sanitize_username (getD d.username) with
            | .error e => (st1, [⟨.errorMsg e, .caller⟩])
            | .ok username =>
              match alookup st1.rooms rc with
              | none => (st1, [⟨.errorMsg msgRoomNotFound, .caller⟩])
              | some room =>
                if room.users.length ≥ MAX_USERS_PER_ROOM then
                  (st1, [⟨.errorMsg msgRoomFull, .caller⟩])
                else if is_username_taken st1 rc username sid then
                  (st1, [⟨.errorMsg (msgUsernameTaken username), .caller⟩])
                else
                  let leave :=
                    if (alookup st1.user_data sid).isSome
                    then handle_user_leave t sid true st1
                    else (st1, [])
                  let st2 := leave.1
                  let newUser : UserEntry := ⟨username, sid, false⟩
                  match alookup st2.rooms rc with
                  | some room2 =>
                    let existing := room2.users.map (·.2)
                    let room3 := { room2 with
                                   users := alistSet room2.users sid newUser,
                                   last_activity := t }
                    ({ st2 with
                       rooms := alistSet st2.rooms rc room3,
                       user_data := alistSet st2.user_data sid ⟨username, rc, t⟩ },
                     leave.2 ++
                       [⟨.roomJoined rc username existing, .caller⟩,
                        ⟨.userJoined username sid false, .room rc (some sid)⟩])
                  | none =>
                    ({ st2 with
                       user_data := alistSet st2.user_data sid ⟨username, rc, t⟩ },
                     leave.2 ++
                       [⟨.roomJoined rc username [], .caller⟩,
                        ⟨.userJoined username sid false, .room rc (some sid)⟩])

/-! ### Mute status (handle_mute_status, server.py lines 390-416) -/

/-- The `mute-status` payload: `muted` holds the raw value under the
`muted` key (`none` for an absent key, coerced by `bool(...)` to its
truthiness); the whole payload is `none` when `data` is absent, falsy or
not a dict. -/
structure MuteData where
  muted : Option Opaque
deriving DecidableEq, Repr

/-- server.py lines 390-416 (`update_room_activity` inlined at its only
call site inside, server.py lines 137-140). -/
def handle_mute_status (t : Nat) (sid : Nat) (data : Option MuteData)
    (st : ServerState) : ServerState × List Emission :=
  match data with
  | none => (st, [])
  | some d =>
    let m : Bool := match d.muted with
                    | none => false
                    | some o => o.truthy
    match alookup st.user_data sid with
    | none => (st, [])
    | some ud =>
      let rc := ud.room_code
      if rc = [] then (st, [])
      else
        match alookup st.rooms rc with
        | none => (st, [])
        | some room =>
          match alookup room.users sid with
          | none => (st, [])
          | some u =>
            let room2 := { room with
                           users := alistSet room.users sid { u with muted := m },
                           last_activity := t }
            ({ st with rooms := alistSet st.rooms rc room2 },
             [⟨.userMuteChanged sid m, .room rc none⟩])

/-! ### Signaling relay (server.py lines 419-507) -/

/-- An `offer`/`answer`/`ice-candidate` payload: `targetId` (`none` for an
absent key, `some 0` for a present falsy id) and the opaque signaling
field (`offer`/`answer`/`candidate`; `none` for absent). The whole payload
is `none` when `data` is absent, falsy or not a dict. -/
structure SignalData where
  targetId : Option Nat
  payload : Option Opaque
deriving DecidableEq, Repr

/-- server.py lines 419-447. -/
def handle_offer (sid : Nat) (data : Option SignalData) (st : ServerState) :
    ServerState × List Emission :=
  match data with
  | none => (st, [])
  | some d =>
    match d.targetId with
    | none => (st, [])
    | some tid =>
      if tid = 0 then (st, [])
      else
        match d.payload with
        | none => (st, [])
        | some off =>
          if off.truthy = false then (st, [])
          else
            match alookup st.user_data sid, alookup st.user_data tid with
            | some sud, some tud =>
              if sud.room_code = tud.room_code then
                (st, [⟨.offerEvt off sid sud.username, .direct tid⟩])
              else (st, [])
            | some _, none => (st, [])
            | none, _ => (st, [])

/-- server.py lines 450-477. -/
def handle_answer (sid : Nat) (data : Option SignalData) (st : ServerState) :
    ServerState × List Emission :=
  match data with
  | none => (st, [])
  | some d =>
    match d.targetId with
    | none => (st, [])
    | some tid =>
      if tid = 0 then (st, [])
      else
        match d.payload with
        | none => (st, [])
        | some ans =>
          if ans.truthy = false then (st, [])
          else
            match alookup st.user_data sid, alookup st.user_data tid with
            | some sud, some tud =>
              if sud.room_code = tud.room_code then
                (st, [⟨.answerEvt ans sid, .direct tid⟩])
              else (st, [])
            | some _, none => (st, [])
            | none, _ => (st, [])

/-- server.py lines 480-507.  Unlike `handle_offer`/`handle_answer`, the
`candidate` field is neither required nor checked for truthiness; it is
forwarded as-is (possibly `None`). -/
def handle_ice_candidate (sid : Nat) (data : Option SignalData)
    (st : ServerState) : ServerState × List Emission :=
  match data with
  | none => (st, [])
  | some d =>
    match d.targetId with
    | none => (st, [])
    | some tid =>
      if tid = 0 then (st, [])
      else
        match alookup st.user_data sid, alookup st.user_data tid with
        | some sud, some tud =>
          if sud.room_code = tud.room_code then
            (st, [⟨.iceEvt d.payload sid, .direct tid⟩])
          else (st, [])
        | some _, none => (st, [])
        | none, _ => (st, [])

/-! ### Idle-room reaping (cleanup_inactive_rooms, server.py lines 119-134) -/

/-- server.py lines 119-134. -/
def cleanup_inactive_rooms (t : Nat) (st : ServerState) : ServerState :=
  { st with rooms := st.rooms.filter (fun p =>
      if p.2.users.length = 0 then false
      else if t - p.2.last_activity > ROOM_INACTIVE_TIMEOUT then false
      else true) }

/-! ### The membership invariant and well-formedness -/

/-- Bidirectional membership consistency (spec §3): every `user_data`
entry names a live room whose `users` map contains it, every listed room
member has a `user_data` entry pointing back at that room, and no room is
empty. -/
def consistentB (st : ServerState) : Bool :=
  st.user_data.all (fun p =>
    match alookup st.rooms p.2.room_code with
    | some room => (alookup room.users p.1).isSome
    | none => false) &&
  st.rooms.all (fun q =>
    (decide (q.2.users ≠ [])) &&
    q.2.users.all (fun m =>
      match alookup st.user_data m.1 with
      | some ud => decide (ud.room_code = q.1)
      | none => false))

/-- Structural well-formedness: each stored member record carries its own
key as `socketId` (the code always stores `'socketId': sid` under key
`sid`). -/
def wfB (st : ServerState) : Bool :=
  st.rooms.all (fun q => q.2.users.all (fun m => decide (m.2.socketId = m.1)))

/-! ### Association-list lemmas -/

theorem alookup_cons [DecidableEq α] (a : α × β) (t : List (α × β))
    (key : α) :
    alookup (a :: t) key = if a.1 = key then some a.2 else alookup t key :=
  rfl

theorem alookup_map_replace [DecidableEq α] (l : List (α × β)) (k : α) (v : β) :
    alookup (l.map (fun p => if p.1 = k then (k, v) else p)) k =
      ((alookup l k).map (fun _ => v)) := by
  induction l with
  | nil => rfl
  | cons a t ih =>
    rw [List.map_cons]
    by_cases h : a.1 = k
    · rw [if_pos h, alookup_cons, alookup_cons, if_pos h, if_pos rfl]
      rfl
    · rw [if_neg h, alookup_cons, alookup_cons, if_neg h, if_neg h, ih]

theorem alookup_map_replace_ne [DecidableEq α] (l : List (α × β)) (k k' : α)
    (v : β) (h : k' ≠ k) :
    alookup (l.map (fun p => if p.1 = k then (k, v) else p)) k' =
      alookup l k' := by
  induction l with
  | nil => rfl
  | cons a t ih =>
    rw [List.map_cons]
    by_cases ha : a.1 = k
    · have hkk : ¬ (k = k') := fun hk => h hk.symm
      have ha' : ¬ (a.1 = k') := fun hx => h (hx ▸ ha)
      rw [if_pos ha, alookup_cons, alookup_cons, if_neg hkk, if_neg ha', ih]
    · rw [if_neg ha, alookup_cons, alookup_cons, ih]

theorem alookup_append_right [DecidableEq α] (l l' : List (α × β)) (k : α) :
    alookup l k = none → alookup (l ++ l') k = alookup l' k := by
  induction l with
  | nil => intro _; rfl
  | cons a t ih =>
    intro h
    rw [alookup_cons] at h
    rw [List.cons_append, alookup_cons]
    by_cases ha : a.1 = k
    · rw [if_pos ha] at h; exact absurd h (by simp)
    · rw [if_neg ha] at h
      rw [if_neg ha, ih h]

theorem alookup_alistSet_self [DecidableEq α] (l : List (α × β)) (k : α)
    (v : β) : alookup (alistSet l k v) k = some v := by
  unfold alistSet
  by_cases h : (alookup l k).isSome
  · rw [if_pos h, alookup_map_replace]
    cases hl : alookup l k with
    | none => rw [hl] at h; simp at h
    | some w => simp
  · rw [if_neg h]
    cases hl : alookup l k with
    | none =>
      rw [alookup_append_right _ _ _ hl, alookup_cons, if_pos rfl]
    | some w => rw [hl] at h; simp at h

theorem alookup_alistSet_ne [DecidableEq α] (l : List (α × β)) (k k' : α)
    (v : β) (h : k' ≠ k) : alookup (alistSet l k v) k' = alookup l k' := by
  unfold alistSet
  by_cases hs : (alookup l k).isSome
  · rw [if_pos hs, alookup_map_replace_ne _ _ _ _ h]
  · rw [if_neg hs]
    clear hs
    induction l with
    | nil =>
      rw [List.nil_append, alookup_cons, if_neg (fun hk => h hk.symm)]
    | cons a t ih =>
      rw [List.cons_append, alookup_cons, alookup_cons]
      by_cases ha : a.1 = k'
      · rw [if_pos ha, if_pos ha]
      · rw [if_neg ha, if_neg ha, ih]

theorem alookup_alistErase_self [DecidableEq α] (l : List (α × β)) (k : α) :
    alookup (alistErase l k) k = none := by
  induction l with
  | nil => rfl
  | cons a t ih =>
    show alookup (List.filter _ (a :: t)) k = none
    rw [List.filter_cons]
    by_cases ha : a.1 = k
    · rw [if_neg (by rw [if_pos ha]; simp)]
      exact ih
    · rw [if_pos (by rw [if_neg ha])]
      rw [alookup_cons, if_neg ha]
      exact ih

theorem alookup_alistErase_ne [DecidableEq α] (l : List (α × β)) (k k' : α)
    (h : k' ≠ k) : alookup (alistErase l k) k' = alookup l k' := by
  induction l with
  | nil => rfl
  | cons a t ih =>
    show alookup (List.filter _ (a :: t)) k' = _
    rw [List.filter_cons, alookup_cons]
    by_cases ha : a.1 = k
    · have ha' : ¬ (a.1 = k') := fun hx => h (hx ▸ ha)
      rw [if_neg (by rw [if_pos ha]; simp), if_neg ha']
      exact ih
    · rw [if_pos (by rw [if_neg ha]), alookup_cons]
      by_cases ha' : a.1 = k'
      · rw [if_pos ha', if_pos ha']
      · rw [if_neg ha', if_neg ha']
        exact ih

theorem alookup_mem [DecidableEq α] {l : List (α × β)} {k : α} {v : β} :
    alookup l k = some v → (k, v) ∈ l := by
  induction l with
  | nil => intro h; exact absurd h (by simp [alookup])
  | cons a t ih =>
    intro h
    rw [alookup_cons] at h
    by_cases ha : a.1 = k
    · rw [if_pos ha] at h
      have h2 : a.2 = v := by injection h
      have h3 : (k, v) = a := by rw [← ha, ← h2]
      rw [h3]
      exact List.mem_cons_self _ _
    · rw [if_neg ha] at h
      exact List.mem_cons_of_mem _ (ih h)

theorem mem_alistErase [DecidableEq α] {l : List (α × β)} {k : α}
    {p : α × β} (h : p ∈ alistErase l k) : p ∈ l ∧ p.1 ≠ k := by
  unfold alistErase at h
  refine ⟨List.mem_of_mem_filter h, ?_⟩
  have := List.of_mem_filter h
  by_cases hp : p.1 = k
  · rw [if_pos hp] at this; exact absurd this (by simp)
  · exact hp

theorem alistErase_of_lookup_none [DecidableEq α] {l : List (α × β)} {k : α} :
    alookup l k = none → alistErase l k = l := by
  induction l with
  | nil => intro _; rfl
  | cons a t ih =>
    intro h
    rw [alookup_cons] at h
    by_cases ha : a.1 = k
    · rw [if_pos ha] at h; exact absurd h (by simp)
    · rw [if_neg ha] at h
      show List.filter _ (a :: t) = _
      rw [List.filter_cons, if_pos (by rw [if_neg ha])]
      rw [show List.filter (fun p => if p.1 = k then false else true) t
            = alistErase t k from rfl, ih h]

theorem alistSet_keys [DecidableEq α] (l : List (α × β)) (k : α) (v : β)
    (h : (alookup l k).isSome) :
    (alistSet l k v).map Prod.fst = l.map Prod.fst := by
  unfold alistSet
  rw [if_pos h, List.map_map]
  refine List.map_congr_left ?_
  intro p _
  by_cases hp : p.1 = k
  · simp [Function.comp, hp]
  · simp [Function.comp, hp]

/-! ### Invariant accessor lemmas -/

theorem consistent_user {st : ServerState} {sid : Nat} {ud : UserData}
    (h : consistentB st = true) (hud : alookup st.user_data sid = some ud) :
    ∃ room, alookup st.rooms ud.room_code = some room ∧
      (alookup room.users sid).isSome = true := by
  unfold consistentB at h
  rw [Bool.and_eq_true] at h
  have h1 := (List.all_eq_true.mp h.1) (sid, ud) (alookup_mem hud)
  cases hr : alookup st.rooms ud.room_code with
  | none => rw [hr] at h1; simp at h1
  | some room =>
    rw [hr] at h1
    exact ⟨room, rfl, h1⟩

theorem consistent_member {st : ServerState} {c : Str} {room : Room}
    {k : Nat} {u : UserEntry} (h : consistentB st = true)
    (hr : alookup st.rooms c = some room) (hm : (k, u) ∈ room.users) :
    ∃ ud, alookup st.user_data k = some ud ∧ ud.room_code = c := by
  unfold consistentB at h
  rw [Bool.and_eq_true] at h
  have h2 := (List.all_eq_true.mp h.2) (c, room) (alookup_mem hr)
  rw [Bool.and_eq_true] at h2
  have h3 := (List.all_eq_true.mp h2.2) (k, u) hm
  cases hk : alookup st.user_data k with
  | none => rw [hk] at h3; simp at h3
  | some ud =>
    rw [hk] at h3
    exact ⟨ud, rfl, of_decide_eq_true h3⟩

theorem not_member_of_no_user_data {st : ServerState} {c : Str} {room : Room}
    {sid : Nat} (h : consistentB st = true)
    (hud : alookup st.user_data sid = none)
    (hr : alookup st.rooms c = some room) :
    alookup room.users sid = none := by
  cases hm : alookup room.users sid with
  | none => rfl
  | some u =>
    obtain ⟨ud, hud', _⟩ := consistent_member h hr (alookup_mem hm)
    rw [hud] at hud'
    exact absurd hud' (by simp)

theorem not_member_of_other_room {st : ServerState} {c : Str} {room : Room}
    {sid : Nat} {ud : UserData} (h : consistentB st = true)
    (hud : alookup st.user_data sid = some ud) (hne : ud.room_code ≠ c)
    (hr : alookup st.rooms c = some room) :
    alookup room.users sid = none := by
  cases hm : alookup room.users sid with
  | none => rfl
  | some u =>
    obtain ⟨ud', hud', hc⟩ := consistent_member h hr (alookup_mem hm)
    rw [hud] at hud'
    cases hud'
    exact absurd hc hne

theorem wf_socketId {st : ServerState} {c : Str} {room : Room} {k : Nat}
    {u : UserEntry} (h : wfB st = true)
    (hr : alookup st.rooms c = some room) (hm : (k, u) ∈ room.users) :
    u.socketId = k := by
  unfold wfB at h
  have h1 := (List.all_eq_true.mp h) (c, room) (alookup_mem hr)
  exact of_decide_eq_true ((List.all_eq_true.mp h1) (k, u) hm)


/-! ### Concrete scenario states -/

def codeA : Str := "ABCDEF".data

def stateSoloAlice : ServerState :=
  { rooms := [(codeA,
      { users := [(1, ⟨"Alice".data, 1, false⟩)],
        created_at := 50, last_activity := 50 })],
    user_data := [(1, ⟨"Alice".data, codeA, 50⟩)],
    rate_limits := [] }

def rejoinResult : ServerState × List Emission :=
  handle_join_room 60 1
    (some ⟨some (.vstr codeA), some (.vstr "Alice".data)⟩) stateSoloAlice

/-- C1: the membership invariant is the right one, but the code breaks it:
when the sole member of a room re-joins the same room code, the implicit
leave deletes the room, the member is re-inserted into a stale dict, and
the operation completes reporting success while `user_data` points at a
room that no longer exists. -/
theorem claim_C1_rejoin_breaks_membership_invariant :
    consistentB stateSoloAlice = true ∧
    (Emission.mk (.roomJoined codeA "Alice".data []) .caller) ∈ rejoinResult.2 ∧
    alookup rejoinResult.1.user_data 1 = some ⟨"Alice".data, codeA, 60⟩ ∧
    alookup rejoinResult.1.rooms codeA = none ∧
    consistentB rejoinResult.1 = false := by decide

def stateAliceBob : ServerState :=
  { rooms := [(codeA,
      { users := [(1, ⟨"Alice".data, 1, false⟩), (2, ⟨"Bob".data, 2, false⟩)],
        created_at := 50, last_activity := 50 })],
    user_data := [(1, ⟨"Alice".data, codeA, 50⟩), (2, ⟨"Bob".data, codeA, 50⟩)],
    rate_limits := [(1, ⟨100, RATE_LIMIT_MAX_ACTIONS⟩)] }

/-- C2 counterexample: connection 1 has exhausted its rate window (a gated
action at the same instant would be denied), yet a `mute-status` call goes
through untouched: the mute change is broadcast and no throttle error is
emitted, because `handle_mute_status` never consults the rate limiter. -/
theorem claim_C2_cex_mute_status_not_gated :
    (check_rate_limit 100 1 stateAliceBob.rate_limits).1 = true ∧
    (handle_mute_status 100 1 (some ⟨some ⟨true, 0⟩⟩) stateAliceBob).2 =
      [⟨.userMuteChanged 1 true, .room codeA none⟩] := by decide


/-- C2 amended: `mute-status` is not rate-gated at all.  The handler never
reads or writes the rate-limit table: the table is unchanged by the call,
and the emissions and resulting rooms are identical whatever the caller's
rate state is. -/
theorem claim_C2_amended_mute_status_ignores_rate_limiter
    (t sid : Nat) (d : Option MuteData) (st : ServerState)
    (rl' : List (Nat × RateEntry)) :
    (handle_mute_status t sid d st).1.rate_limits = st.rate_limits ∧
    (handle_mute_status t sid d { st with rate_limits := rl' }).2 =
      (handle_mute_status t sid d st).2 ∧
    (handle_mute_status t sid d { st with rate_limits := rl' }).1.rooms =
      (handle_mute_status t sid d st).1.rooms := by
  cases d with
  | none => exact ⟨rfl, rfl, rfl⟩
  | some dd =>
    cases hud : alookup st.user_data sid with
    | none => simp [handle_mute_status, hud]
    | some ud =>
      by_cases hrc : ud.room_code = []
      · simp [handle_mute_status, hud, hrc]
      · cases hr : alookup st.rooms ud.room_code with
        | none => simp [handle_mute_status, hud, hrc, hr]
        | some room =>
          cases hu : alookup room.users sid with
          | none => simp [handle_mute_status, hud, hrc, hr, hu]
          | some u => simp [handle_mute_status, hud, hrc, hr, hu]

/-- C4 counterexample: with gated actions at times 0, 3 and 6, more than
RATE_LIMIT_WINDOW seconds have elapsed since the window started (at time
0) by the third action, yet the counter is not reset to 1: the code
measures the window from the most recent action (time 3), so the counter
reaches 3. -/
theorem claim_C4_cex_window_not_reset_from_window_start :
    0 + RATE_LIMIT_WINDOW < 6 ∧
    (check_rate_limit 6 7 (check_rate_limit 3 7 (check_rate_limit 0 7 []).2).2).1
      = false ∧
    alookup (check_rate_limit 6 7
        (check_rate_limit 3 7 (check_rate_limit 0 7 []).2).2).2 7
      = some ⟨6, 3⟩ ∧
    alookup (check_rate_limit 6 7
        (check_rate_limit 3 7 (check_rate_limit 0 7 []).2).2).2 7
      ≠ some ⟨6, 1⟩ := by decide

/-- C4 amended: the limiter is a sliding window anchored at the most
recent gated action, not at the start of the window.  The first action for
a connection records count 1 and is allowed; an action within
RATE_LIMIT_WINDOW of the *last* action increments the counter and is
denied exactly when the counter exceeds RATE_LIMIT_MAX_ACTIONS; an action
more than RATE_LIMIT_WINDOW after the *last* action resets the counter to
1 and is allowed. -/
theorem claim_C4_amended_sliding_rate_window
    (t sid : Nat) (rl : List (Nat × RateEntry)) :
    ((check_rate_limit t sid rl).1 = true ↔
      ∃ r, alookup rl sid = some r ∧ t - r.last_action ≤ RATE_LIMIT_WINDOW ∧
        RATE_LIMIT_MAX_ACTIONS < r.action_count + 1) ∧
    (∀ r, alookup rl sid = some r → t - r.last_action ≤ RATE_LIMIT_WINDOW →
      alookup (check_rate_limit t sid rl).2 sid =
        some ⟨t, r.action_count + 1⟩) ∧
    (alookup rl sid = none →
      (check_rate_limit t sid rl).1 = false ∧
      alookup (check_rate_limit t sid rl).2 sid = some ⟨t, 1⟩) ∧
    (∀ r, alookup rl sid = some r → RATE_LIMIT_WINDOW < t - r.last_action →
      (check_rate_limit t sid rl).1 = false ∧
      alookup (check_rate_limit t sid rl).2 sid = some ⟨t, 1⟩) := by
  cases h : alookup rl sid with
  | none =>
    refine ⟨?_, ?_, ?_, ?_⟩
    · simp [check_rate_limit, h]
    · intro r hr; exact Option.noConfusion hr
    · intro _
      exact ⟨by simp [check_rate_limit, h],
             by simp [check_rate_limit, h, alookup_alistSet_self]⟩
    · intro r hr; exact Option.noConfusion hr
  | some r0 =>
    by_cases hw : t - r0.last_action > RATE_LIMIT_WINDOW
    · refine ⟨?_, ?_, ?_, ?_⟩
      · simp only [check_rate_limit, h, if_pos hw]
        constructor
        · intro hfalse; exact absurd hfalse (by simp)
        · rintro ⟨r, hr, hle, _⟩
          cases hr
          exact absurd hle (by omega)
      · intro r hr hle
        cases hr
        exact absurd hle (by omega)
      · intro hnone; exact Option.noConfusion hnone
      · intro r hr _
        cases hr
        exact ⟨by simp [check_rate_limit, h, if_pos hw],
               by simp [check_rate_limit, h, if_pos hw, alookup_alistSet_self]⟩
    · refine ⟨?_, ?_, ?_, ?_⟩
      · simp only [check_rate_limit, h, if_neg hw]
        constructor
        · intro hd
          exact ⟨r0, rfl, by omega, of_decide_eq_true hd⟩
        · rintro ⟨r, hr, _, hgt⟩
          cases hr
          exact decide_eq_true hgt
      · intro r hr _
        cases hr
        simp [check_rate_limit, h, if_neg hw, alookup_alistSet_self]
      · intro hnone; exact Option.noConfusion hnone
      · intro r hr hgt
        cases hr
        exact absurd hgt (by omega)

/-- C3 counterexample: sender 1 and target 2 are both live members of the
same room, yet an `offer` whose payload field is absent is dropped: the
forward-iff-co-located description fails in the payload-absent case. -/
theorem claim_C3_cex_colocated_offer_without_payload_dropped :
    alookup stateAliceBob.user_data 1 = some ⟨"Alice".data, codeA, 50⟩ ∧
    alookup stateAliceBob.user_data 2 = some ⟨"Bob".data, codeA, 50⟩ ∧
    consistentB stateAliceBob = true ∧
    (handle_offer 1 (some ⟨some 2, none⟩) stateAliceBob).2 = [] := by decide


/-! ### Relay characterization lemmas -/

theorem handle_offer_state (st : ServerState) (sid : Nat)
    (d : Option SignalData) : (handle_offer sid d st).1 = st := by
  unfold handle_offer
  repeat' split
  all_goals rfl

theorem handle_answer_state (st : ServerState) (sid : Nat)
    (d : Option SignalData) : (handle_answer sid d st).1 = st := by
  unfold handle_answer
  repeat' split
  all_goals rfl

theorem handle_ice_candidate_state (st : ServerState) (sid : Nat)
    (d : Option SignalData) : (handle_ice_candidate sid d st).1 = st := by
  unfold handle_ice_candidate
  repeat' split
  all_goals rfl

theorem offer_emits_iff (st : ServerState) (sid : Nat) (d : Option SignalData)
    (e : Emission) :
    e ∈ (handle_offer sid d st).2 ↔
      ∃ tid off sud tud,
        d = some ⟨some tid, some off⟩ ∧ tid ≠ 0 ∧ off.truthy = true ∧
        alookup st.user_data sid = some sud ∧
        alookup st.user_data tid = some tud ∧
        sud.room_code = tud.room_code ∧
        e = ⟨.offerEvt off sid sud.username, .direct tid⟩ := by
  cases d with
  | none => simp [handle_offer]
  | some dd =>
    obtain ⟨otid, opay⟩ := dd
    cases otid with
    | none => simp [handle_offer]
    | some tid =>
      by_cases h0 : tid = 0
      · subst h0
        simp [handle_offer]
        intro x x1 hx
        subst hx
        simp
      · cases opay with
        | none => simp [handle_offer, h0]
        | some off =>
          by_cases htr : off.truthy = true
          · cases hs : alookup st.user_data sid with
            | none => simp [handle_offer, h0, htr, hs]
            | some sud =>
              cases ht : alookup st.user_data tid with
              | none => simp [handle_offer, h0, htr, hs, ht]
              | some tud =>
                by_cases hc : sud.room_code = tud.room_code
                · constructor
                  · intro he
                    have he' :
                        e = ⟨.offerEvt off sid sud.username, .direct tid⟩ := by
                      simpa [handle_offer, h0, htr, hs, ht, hc] using he
                    exact ⟨tid, off, sud, tud, rfl, h0, htr, rfl, ht, hc, he'⟩
                  · rintro ⟨tid', off', sud', tud', hd, -, -, hs', -, -, he⟩
                    injection hd with hd0
                    injection hd0 with hdt hdp
                    injection hdt with h1
                    injection hdp with h2
                    subst h1
                    subst h2
                    injection hs' with hsud
                    subst hsud
                    simp [handle_offer, h0, htr, hs, ht, hc, he]
                · simp [handle_offer, h0, htr, hs, ht, hc]
          · have htr' : off.truthy = false := by
              cases hoff : off.truthy
              · rfl
              · exact absurd hoff htr
            simp [handle_offer, h0, htr', htr]


theorem answer_emits_iff (st : ServerState) (sid : Nat)
    (d : Option SignalData) (e : Emission) :
    e ∈ (handle_answer sid d st).2 ↔
      ∃ tid ans sud tud,
        d = some ⟨some tid, some ans⟩ ∧ tid ≠ 0 ∧ ans.truthy = true ∧
        alookup st.user_data sid = some sud ∧
        alookup st.user_data tid = some tud ∧
        sud.room_code = tud.room_code ∧
        e = ⟨.answerEvt ans sid, .direct tid⟩ := by
  cases d with
  | none => simp [handle_answer]
  | some dd =>
    obtain ⟨otid, opay⟩ := dd
    cases otid with
    | none => simp [handle_answer]
    | some tid =>
      by_cases h0 : tid = 0
      · subst h0
        simp [handle_answer]
        intro x x1 hx
        subst hx
        simp
      · cases opay with
        | none => simp [handle_answer, h0]
        | some ans =>
          by_cases htr : ans.truthy = true
          · cases hs : alookup st.user_data sid with
            | none => simp [handle_answer, h0, htr, hs]
            | some sud =>
              cases ht : alookup st.user_data tid with
              | none => simp [handle_answer, h0, htr, hs, ht]
              | some tud =>
                by_cases hc : sud.room_code = tud.room_code
                · constructor
                  · intro he
                    have he' : e = ⟨.answerEvt ans sid, .direct tid⟩ := by
                      simpa [handle_answer, h0, htr, hs, ht, hc] using he
                    exact ⟨tid, ans, sud, tud, rfl, h0, htr, rfl, ht, hc, he'⟩
                  · rintro ⟨tid', ans', sud', tud', hd, -, -, -, -, -, he⟩
                    injection hd with hd0
                    injection hd0 with hdt hdp
                    injection hdt with h1
                    injection hdp with h2
                    subst h1
                    subst h2
                    simp [handle_answer, h0, htr, hs, ht, hc, he]
                · simp [handle_answer, h0, htr, hs, ht, hc]
          · have htr' : ans.truthy = false := by
              cases hoff : ans.truthy
              · rfl
              · exact absurd hoff htr
            simp [handle_answer, h0, htr', htr]

theorem ice_emits_iff (st : ServerState) (sid : Nat)
    (d : Option SignalData) (e : Emission) :
    e ∈ (handle_ice_candidate sid d st).2 ↔
      ∃ tid pay sud tud,
        d = some ⟨some tid, pay⟩ ∧ tid ≠ 0 ∧
        alookup st.user_data sid = some sud ∧
        alookup st.user_data tid = some tud ∧
        sud.room_code = tud.room_code ∧
        e = ⟨.iceEvt pay sid, .direct tid⟩ := by
  cases d with
  | none => simp [handle_ice_candidate]
  | some dd =>
    obtain ⟨otid, opay⟩ := dd
    cases otid with
    | none => simp [handle_ice_candidate]
    | some tid =>
      by_cases h0 : tid = 0
      · subst h0
        simp [handle_ice_candidate]
      · cases hs : alookup st.user_data sid with
        | none => simp [handle_ice_candidate, h0, hs]
        | some sud =>
          cases ht : alookup st.user_data tid with
          | none => simp [handle_ice_candidate, h0, hs, ht]
          | some tud =>
            by_cases hc : sud.room_code = tud.room_code
            · constructor
              · intro he
                have he' : e = ⟨.iceEvt opay sid, .direct tid⟩ := by
                  simpa [handle_ice_candidate, h0, hs, ht, hc] using he
                exact ⟨tid, opay, sud, tud, rfl, h0, rfl, ht, hc, he'⟩
              · rintro ⟨tid', pay', sud', tud', hd, -, -, -, -, he⟩
                injection hd with hd0
                injection hd0 with hdt hdp
                injection hdt with h1
                subst h1
                subst hdp
                simp [handle_ice_candidate, h0, hs, ht, hc, he]
            · simp [handle_ice_candidate, h0, hs, ht, hc]


/-- C3 amended: a relayed signaling message is forwarded to the target —
payload unchanged, tagged with the sender's id (plus the sender's username
for `offer`) — if and only if the event data is a dict carrying a truthy
`targetId`, the payload field is present and truthy for `offer`/`answer`
(`ice-candidate` has no payload requirement), and both sender and target
have registered connections whose room codes are equal.  In every other
case nothing is emitted and the registry state is unchanged; the relay
handlers never mutate the registry at all. -/
theorem claim_C3_amended_relay_forward_iff (st : ServerState) (sid : Nat)
    (d : Option SignalData) :
    ((handle_offer sid d st).1 = st ∧ (handle_answer sid d st).1 = st ∧
      (handle_ice_candidate sid d st).1 = st) ∧
    (∀ e, e ∈ (handle_offer sid d st).2 ↔
      ∃ tid off sud tud,
        d = some ⟨some tid, some off⟩ ∧ tid ≠ 0 ∧ off.truthy = true ∧
        alookup st.user_data sid = some sud ∧
        alookup st.user_data tid = some tud ∧
        sud.room_code = tud.room_code ∧
        e = ⟨.offerEvt off sid sud.username, .direct tid⟩) ∧
    (∀ e, e ∈ (handle_answer sid d st).2 ↔
      ∃ tid ans sud tud,
        d = some ⟨some tid, some ans⟩ ∧ tid ≠ 0 ∧ ans.truthy = true ∧
        alookup st.user_data sid = some sud ∧
        alookup st.user_data tid = some tud ∧
        sud.room_code = tud.room_code ∧
        e = ⟨.answerEvt ans sid, .direct tid⟩) ∧
    (∀ e, e ∈ (handle_ice_candidate sid d st).2 ↔
      ∃ tid pay sud tud,
        d = some ⟨some tid, pay⟩ ∧ tid ≠ 0 ∧
        alookup st.user_data sid = some sud ∧
        alookup st.user_data tid = some tud ∧
        sud.room_code = tud.room_code ∧
        e = ⟨.iceEvt pay sid, .direct tid⟩) :=
  ⟨⟨handle_offer_state st sid d, handle_answer_state st sid d,
    handle_ice_candidate_state st sid d⟩,
   fun e => offer_emits_iff st sid d e,
   fun e => answer_emits_iff st sid d e,
   fun e => ice_emits_iff st sid d e⟩

/-- C10: when sender and target are registered in the same room and the
`targetId` is truthy, an `ice-candidate` with an absent `candidate` field
is still delivered (candidate forwarded as null), whereas `offer` and
`answer` with an absent or falsy payload are silently dropped. -/
theorem claim_C10_ice_forwards_absent_candidate
    (st : ServerState) (sid tid : Nat) (sud tud : UserData)
    (h0 : tid ≠ 0)
    (hs : alookup st.user_data sid = some sud)
    (ht : alookup st.user_data tid = some tud)
    (hc : sud.room_code = tud.room_code) :
    (handle_ice_candidate sid (some ⟨some tid, none⟩) st).2 =
      [⟨.iceEvt none sid, .direct tid⟩] ∧
    (handle_offer sid (some ⟨some tid, none⟩) st).2 = [] ∧
    (handle_answer sid (some ⟨some tid, none⟩) st).2 = [] ∧
    (∀ o : Opaque, o.truthy = false →
      (handle_offer sid (some ⟨some tid, some o⟩) st).2 = [] ∧
      (handle_answer sid (some ⟨some tid, some o⟩) st).2 = []) := by
  refine ⟨?_, ?_, ?_, ?_⟩
  · simp [handle_ice_candidate, h0, hs, ht, hc]
  · simp [handle_offer, h0]
  · simp [handle_answer, h0]
  · intro o ho
    exact ⟨by simp [handle_offer, h0, ho], by simp [handle_answer, h0, ho]⟩

/-- Witness for C10 at a concrete two-member room. -/
theorem claim_C10_witness :
    (handle_ice_candidate 1 (some ⟨some 2, none⟩) stateAliceBob).2 =
      [⟨.iceEvt none 1, .direct 2⟩] ∧
    (handle_offer 1 (some ⟨some 2, none⟩) stateAliceBob).2 = [] :=
  ⟨(claim_C10_ice_forwards_absent_candidate stateAliceBob 1 2
      ⟨"Alice".data, codeA, 50⟩ ⟨"Bob".data, codeA, 50⟩
      (by decide) (by decide) (by decide) rfl).1,
   (claim_C10_ice_forwards_absent_candidate stateAliceBob 1 2
      ⟨"Alice".data, codeA, 50⟩ ⟨"Bob".data, codeA, 50⟩
      (by decide) (by decide) (by decide) rfl).2.1⟩


/-- C9: a mute-status call from a room member changes only that member's
muted flag and the room's activity timestamp.  `user_data` and
`rate_limits` are untouched, other rooms are untouched, the room's member
keys and join order are preserved, every other member's record is
unchanged, the member's own username and socketId are unchanged, and
exactly one `user-mute-changed` broadcast is emitted to the room. -/
theorem claim_C9_mute_status_frame
    (t sid : Nat) (mo : Opaque) (st : ServerState) (ud : UserData)
    (room : Room) (u : UserEntry)
    (hud : alookup st.user_data sid = some ud)
    (hrc : ud.room_code ≠ [])
    (hr : alookup st.rooms ud.room_code = some room)
    (hu : alookup room.users sid = some u) :
    (handle_mute_status t sid (some ⟨some mo⟩) st).1.user_data =
      st.user_data ∧
    (handle_mute_status t sid (some ⟨some mo⟩) st).1.rate_limits =
      st.rate_limits ∧
    (∀ c, c ≠ ud.room_code →
      alookup (handle_mute_status t sid (some ⟨some mo⟩) st).1.rooms c =
        alookup st.rooms c) ∧
    (∃ room2,
      alookup (handle_mute_status t sid (some ⟨some mo⟩) st).1.rooms
          ud.room_code = some room2 ∧
      room2.users.map Prod.fst = room.users.map Prod.fst ∧
      (∀ k, k ≠ sid → alookup room2.users k = alookup room.users k) ∧
      alookup room2.users sid = some { u with muted := mo.truthy } ∧
      room2.created_at = room.created_at ∧
      room2.last_activity = t) ∧
    (handle_mute_status t sid (some ⟨some mo⟩) st).2 =
      [⟨.userMuteChanged sid mo.truthy, .room ud.room_code none⟩] := by
  have hres : handle_mute_status t sid (some ⟨some mo⟩) st =
      ({ st with rooms := alistSet st.rooms ud.room_code
                            ({ room with
                               users := alistSet room.users sid
                                          ({ u with muted := mo.truthy }),
                               last_activity := t }) },
       [⟨.userMuteChanged sid mo.truthy, .room ud.room_code none⟩]) := by
    simp [handle_mute_status, hud, hrc, hr, hu]
  rw [hres]
  refine ⟨rfl, rfl, ?_, ?_, rfl⟩
  · intro c hc
    exact alookup_alistSet_ne _ _ _ _ hc
  · refine ⟨_, alookup_alistSet_self _ _ _, ?_, ?_,
      alookup_alistSet_self _ _ _, rfl, rfl⟩
    · exact alistSet_keys _ _ _ (by rw [hu]; rfl)
    · intro k hk
      exact alookup_alistSet_ne _ _ _ _ hk

/-- Witness for C9 at a concrete two-member room. -/
theorem claim_C9_witness :
    (handle_mute_status 100 1 (some ⟨some ⟨true, 5⟩⟩) stateAliceBob).2 =
      [⟨.userMuteChanged 1 true, .room codeA none⟩] :=
  (claim_C9_mute_status_frame 100 1 ⟨true, 5⟩ stateAliceBob
     ⟨"Alice".data, codeA, 50⟩
     { users := [(1, ⟨"Alice".data, 1, false⟩), (2, ⟨"Bob".data, 2, false⟩)],
       created_at := 50, last_activity := 50 }
     ⟨"Alice".data, 1, false⟩
     (by decide) (by decide) (by decide) (by decide)).2.2.2.2


/-! ### C6: joining a full room -/

def room10 : Room :=
  { users := [(1, ⟨"U1".data, 1, false⟩), (2, ⟨"U2".data, 2, false⟩),
              (3, ⟨"U3".data, 3, false⟩), (4, ⟨"U4".data, 4, false⟩),
              (5, ⟨"U5".data, 5, false⟩), (6, ⟨"U6".data, 6, false⟩),
              (7, ⟨"U7".data, 7, false⟩), (8, ⟨"U8".data, 8, false⟩),
              (9, ⟨"U9".data, 9, false⟩), (10, ⟨"UX".data, 10, false⟩)],
    created_at := 50, last_activity := 50 }

def stateFullRoom : ServerState :=
  { rooms := [(codeA, room10)],
    user_data := [(1, ⟨"U1".data, codeA, 50⟩), (2, ⟨"U2".data, codeA, 50⟩),
                  (3, ⟨"U3".data, codeA, 50⟩), (4, ⟨"U4".data, codeA, 50⟩),
                  (5, ⟨"U5".data, codeA, 50⟩), (6, ⟨"U6".data, codeA, 50⟩),
                  (7, ⟨"U7".data, codeA, 50⟩), (8, ⟨"U8".data, codeA, 50⟩),
                  (9, ⟨"U9".data, codeA, 50⟩), (10, ⟨"UX".data, codeA, 50⟩)],
    rate_limits := [] }

/-- C6 counterexample: a join-room call against a room that already has
MAX_USERS_PER_ROOM members does fail with the capacity error and leaves
`rooms` and `user_data` untouched, but the registry's rate-limit map is
*not* "exactly as it was before the call": the gate records the attempt
before the capacity check runs. -/
theorem claim_C6_cex_rate_map_changes_on_full_join :
    (handle_join_room 100 11
        (some ⟨some (.vstr codeA), some (.vstr "Kate".data)⟩)
        stateFullRoom).2 = [⟨.errorMsg msgRoomFull, .caller⟩] ∧
    (handle_join_room 100 11
        (some ⟨some (.vstr codeA), some (.vstr "Kate".data)⟩)
        stateFullRoom).1.rooms = stateFullRoom.rooms ∧
    (handle_join_room 100 11
        (some ⟨some (.vstr codeA), some (.vstr "Kate".data)⟩)
        stateFullRoom).1.user_data = stateFullRoom.user_data ∧
    (handle_join_room 100 11
        (some ⟨some (.vstr codeA), some (.vstr "Kate".data)⟩)
        stateFullRoom).1.rate_limits ≠ stateFullRoom.rate_limits := by decide

/-- C6 amended: a join-room attempt that passes the rate gate and the
input validation but targets a room with MAX_USERS_PER_ROOM members fails
with the capacity error; the membership maps (`rooms` and `user_data`) are
exactly as before, and only the rate-limit map records the attempt. -/
theorem claim_C6_amended_full_room_join_rejected
    (st : ServerState) (t sid : Nat) (d : JoinData) (rcRaw : Str)
    (username : Str) (room : Room)
    (hlim : (check_rate_limit t sid st.rate_limits).1 = false)
    (hrc : getD d.roomCode = .vstr rcRaw)
    (hne : rcRaw ≠ [])
    (hlen : (pyStrip (pyUpper rcRaw)).length = 6)
    (hsan : sanitize_username (getD d.username) = .ok username)
    (hroom : alookup st.rooms (pyStrip (pyUpper rcRaw)) = some room)
    (hfull : room.users.length ≥ MAX_USERS_PER_ROOM) :
    (handle_join_room t sid (some d) st).1.rooms = st.rooms ∧
    (handle_join_room t sid (some d) st).1.user_data = st.user_data ∧
    (handle_join_room t sid (some d) st).1.rate_limits =
      (check_rate_limit t sid st.rate_limits).2 ∧
    (handle_join_room t sid (some d) st).2 =
      [⟨.errorMsg msgRoomFull, .caller⟩] := by
  have hres : handle_join_room t sid (some d) st =
      ({ st with rate_limits := (check_rate_limit t sid st.rate_limits).2 },
       [⟨.errorMsg msgRoomFull, .caller⟩]) := by
    simp [handle_join_room, hlim, hrc, hne, hlen, hsan, hroom, hfull]
  rw [hres]
  exact ⟨rfl, rfl, rfl, rfl⟩

/-- Witness for C6's amended claim at the concrete full room. -/
theorem claim_C6_witness :
    (handle_join_room 100 11
        (some ⟨some (.vstr codeA), some (.vstr "Kate".data)⟩)
        stateFullRoom).1.user_data = stateFullRoom.user_data :=
  (claim_C6_amended_full_room_join_rejected stateFullRoom 100 11
     ⟨some (.vstr codeA), some (.vstr "Kate".data)⟩ codeA "Kate".data room10
     (by decide) (by decide) (by decide) (by decide) (by decide) (by decide)
     (by decide)).2.1


/-- C7: sanitize_username checks, in order: absent-or-not-a-string (Python
falsy or non-str) gives the required error; after trimming, a zero-length
name gives the too-short error; longer-than-20 names are silently
truncated to 20 (the result always has length at most 20 and no length
error); a character outside letters/digits/space/hyphen/underscore in the
(truncated) name gives the invalid-characters error; a result that is
empty once spaces are removed gives the blank error; otherwise the
sanitized name is returned with no error. -/
theorem claim_C7_sanitize_username_behaviour (v : PyVal) :
    ((v = .vnone ∨ v = .vstr [] ∨ ∃ b, v = .vother b) →
      sanitize_username v = .error msgUsernameRequired) ∧
    (∀ s, v = .vstr s → s ≠ [] →
      (pyStrip s = [] → sanitize_username v = .error msgTooShort) ∧
      (pyStrip s ≠ [] →
        ((pyStrip s).take MAX_USERNAME_LENGTH).all allowedChar = false →
        sanitize_username v = .error msgInvalidChars) ∧
      (pyStrip s ≠ [] →
        ((pyStrip s).take MAX_USERNAME_LENGTH).all allowedChar = true →
        (((pyStrip s).take MAX_USERNAME_LENGTH).filter
            (fun c => if c = ' ' then false else true) = [] →
          sanitize_username v = .error msgOnlySpaces) ∧
        (((pyStrip s).take MAX_USERNAME_LENGTH).filter
            (fun c => if c = ' ' then false else true) ≠ [] →
          sanitize_username v = .ok ((pyStrip s).take MAX_USERNAME_LENGTH) ∧
          ((pyStrip s).take MAX_USERNAME_LENGTH).length ≤
            MAX_USERNAME_LENGTH))) := by
  constructor
  · rintro (rfl | rfl | ⟨b, rfl⟩) <;> rfl
  · rintro s rfl hne
    have hs2 : (if (pyStrip s).length > MAX_USERNAME_LENGTH
                then (pyStrip s).take MAX_USERNAME_LENGTH else pyStrip s)
             = (pyStrip s).take MAX_USERNAME_LENGTH := by
      by_cases h : (pyStrip s).length > MAX_USERNAME_LENGTH
      · rw [if_pos h]
      · rw [if_neg h]
        exact (List.take_of_length_le (by omega)).symm
    by_cases h1 : pyStrip s = []
    · refine ⟨fun _ => ?_, fun hn => absurd h1 hn, fun hn => absurd h1 hn⟩
      simp [sanitize_username, hne, h1, MIN_USERNAME_LENGTH]
    · have hlen1 : ¬ ((pyStrip s).length < MIN_USERNAME_LENGTH) := by
        have := List.length_pos_iff_ne_nil.mpr h1
        simp only [MIN_USERNAME_LENGTH]
        omega
      refine ⟨fun h => absurd h h1, ?_, ?_⟩
      · intro _ hbad
        simp [sanitize_username, hne, hlen1, hs2, hbad]
      · intro _ hok
        constructor
        · intro hblank
          simp [sanitize_username, hne, hlen1, hs2, hok, hblank]
          intro x hx
          have h := List.filter_eq_nil_iff.mp hblank x hx
          by_cases hx' : x = ' '
          · exact hx'
          · rw [if_neg hx'] at h
            exact absurd rfl h
        · intro hnb
          refine ⟨?_, List.length_take_le _ _⟩
          simp [sanitize_username, hne, hlen1, hs2, hok, hnb]
          have h := hnb
          rw [Ne, List.filter_eq_nil_iff] at h
          push_neg at h
          obtain ⟨x, hx, hp⟩ := h
          refine ⟨x, hx, ?_⟩
          intro hx'
          rw [if_pos hx'] at hp
          exact Bool.false_ne_true hp


/-- C8: when the sole remaining member of a room leaves (shared path of
`leave-room` and `disconnect`), the room is deleted in the same operation,
and a subsequent join-room naming the old code fails with the not-found
error. -/
theorem claim_C8_last_leave_deletes_room
    (st : ServerState) (t t2 sid sid2 : Nat) (notify : Bool) (c : Str)
    (room : Room) (u : UserEntry) (d : JoinData) (rcRaw username : Str)
    (hcons : consistentB st = true)
    (hroom : alookup st.rooms c = some room)
    (hsole : room.users = [(sid, u)])
    (hlim : (check_rate_limit t2 sid2
        (handle_user_leave t sid notify st).1.rate_limits).1 = false)
    (hrc : getD d.roomCode = .vstr rcRaw)
    (hne : rcRaw ≠ [])
    (hnorm : pyStrip (pyUpper rcRaw) = c)
    (hlen : c.length = 6)
    (hsan : sanitize_username (getD d.username) = .ok username) :
    alookup (handle_user_leave t sid notify st).1.rooms c = none ∧
    (handle_join_room t2 sid2 (some d)
        (handle_user_leave t sid notify st).1).2 =
      [⟨.errorMsg msgRoomNotFound, .caller⟩] := by
  have hmem : (sid, u) ∈ room.users := by rw [hsole]; exact List.mem_cons_self _ _
  obtain ⟨ud, hud, hudc⟩ := consistent_member hcons hroom hmem
  have hcne : c ≠ [] := by
    intro hc
    rw [hc] at hlen
    exact absurd hlen (by simp)
  have hleave : (handle_user_leave t sid notify st).1.rooms =
      alistErase st.rooms c := by
    have hself : alookup [(sid, u)] sid = some u := by
      rw [alookup_cons]
      simp
    simp only [handle_user_leave, hud, hudc, hroom, hsole]
    simp [hcne, alistErase, hself]
  have hnone : alookup (handle_user_leave t sid notify st).1.rooms c = none := by
    rw [hleave]
    exact alookup_alistErase_self _ _
  refine ⟨hnone, ?_⟩
  have hres : handle_join_room t2 sid2 (some d)
      (handle_user_leave t sid notify st).1 =
      ({ (handle_user_leave t sid notify st).1 with
         rate_limits := (check_rate_limit t2 sid2
           (handle_user_leave t sid notify st).1.rate_limits).2 },
       [⟨.errorMsg msgRoomNotFound, .caller⟩]) := by
    simp [handle_join_room, hlim, hrc, hne, hnorm, hlen, hsan, hnone]
  rw [hres]


/-- Witness for C8: Alice (connection 1) is the sole member of room
ABCDEF; after she leaves, the room is gone and Bob's join with the old
code is rejected with the not-found error. -/
theorem claim_C8_witness :
    alookup (handle_user_leave 60 1 true stateSoloAlice).1.rooms codeA
      = none ∧
    (handle_join_room 70 2
        (some ⟨some (.vstr codeA), some (.vstr "Bob".data)⟩)
        (handle_user_leave 60 1 true stateSoloAlice).1).2 =
      [⟨.errorMsg msgRoomNotFound, .caller⟩] :=
  claim_C8_last_leave_deletes_room stateSoloAlice 60 70 1 2 true codeA
    { users := [(1, ⟨"Alice".data, 1, false⟩)],
      created_at := 50, last_activity := 50 }
    ⟨"Alice".data, 1, false⟩
    ⟨some (.vstr codeA), some (.vstr "Bob".data)⟩ codeA "Bob".data
    (by decide) (by decide) (by decide) (by decide) (by decide) (by decide)
    (by decide) (by decide) (by decide)


/-! ### handle_user_leave helper lemmas -/

theorem users1_eq_erase [DecidableEq α] (l : List (α × β)) (k : α) :
    (if (alookup l k).isSome then alistErase l k else l) = alistErase l k := by
  cases h : alookup l k with
  | none => simp [alistErase_of_lookup_none h]
  | some v => simp

theorem handle_user_leave_emissions (t sid : Nat) (notify : Bool)
    (st : ServerState) :
    ∀ e ∈ (handle_user_leave t sid notify st).2,
      ∃ a b tg, e = Emission.mk (.userLeft a b) tg := by
  intro e he
  cases hud : alookup st.user_data sid with
  | none => simp [handle_user_leave, hud] at he
  | some ud =>
    by_cases hrc : ud.room_code = []
    · simp [handle_user_leave, hud, hrc] at he
    · simp only [handle_user_leave, hud, if_neg hrc] at he
      revert he
      split
      · intro he; simp at he
      · rw [users1_eq_erase]
        split
        · by_cases hn : notify
          · intro he
            simp [hn] at he
            exact ⟨sid, ud.username, _, by rw [he]⟩
          · intro he; simp [hn] at he
        · by_cases hn : notify
          · intro he
            simp [hn] at he
            exact ⟨sid, ud.username, _, by rw [he]⟩
          · intro he; simp [hn] at he

theorem leave_user_data (t sid : Nat) (notify : Bool) (st : ServerState)
    (ud : UserData) (hud : alookup st.user_data sid = some ud) :
    (handle_user_leave t sid notify st).1.user_data =
      alistErase st.user_data sid := by
  simp only [handle_user_leave, hud]

theorem leave_rooms_other (t sid : Nat) (notify : Bool) (st : ServerState)
    (ud : UserData) (hud : alookup st.user_data sid = some ud) (c : Str)
    (hne : c ≠ ud.room_code) :
    alookup (handle_user_leave t sid notify st).1.rooms c =
      alookup st.rooms c := by
  simp only [handle_user_leave, hud]
  by_cases hrc : ud.room_code = []
  · rw [if_pos hrc]
  · rw [if_neg hrc]
    split
    · rfl
    · rw [users1_eq_erase]
      split
      · exact alookup_alistErase_ne _ _ _ hne
      · exact alookup_alistSet_ne _ _ _ _ hne

theorem leave_rooms_self_deleted (t sid : Nat) (notify : Bool)
    (st : ServerState) (ud : UserData) (room : Room)
    (hud : alookup st.user_data sid = some ud)
    (hrc : ud.room_code ≠ [])
    (hr : alookup st.rooms ud.room_code = some room)
    (hempty : alistErase room.users sid = []) :
    alookup (handle_user_leave t sid notify st).1.rooms ud.room_code
      = none := by
  simp only [handle_user_leave, hud, if_neg hrc]
  split
  · next heq =>
      rw [hr] at heq
      exact absurd heq (by simp)
  · next room2 heq =>
      rw [hr] at heq
      injection heq with h2
      subst h2
      rw [users1_eq_erase, if_pos hempty]
      exact alookup_alistErase_self _ _

theorem leave_rooms_self_kept (t sid : Nat) (notify : Bool)
    (st : ServerState) (ud : UserData) (room : Room)
    (hud : alookup st.user_data sid = some ud)
    (hrc : ud.room_code ≠ [])
    (hr : alookup st.rooms ud.room_code = some room)
    (hne : alistErase room.users sid ≠ []) :
    alookup (handle_user_leave t sid notify st).1.rooms ud.room_code
      = some ({ room with users := alistErase room.users sid,
                          last_activity := t }) := by
  simp only [handle_user_leave, hud, if_neg hrc]
  split
  · next heq =>
      rw [hr] at heq
      exact absurd heq (by simp)
  · next room2 heq =>
      rw [hr] at heq
      injection heq with h2
      subst h2
      rw [users1_eq_erase, if_neg hne]
      exact alookup_alistSet_self _ _ _


theorem snapshot_no_self (st : ServerState) (code : Str) (room : Room)
    (sid : Nat) (hwf : wfB st = true)
    (hroom : alookup st.rooms code = some room) :
    ∀ u ∈ (alistErase room.users sid).map Prod.snd, u.socketId ≠ sid := by
  intro u hu
  obtain ⟨p, hp, hpu⟩ := List.mem_map.mp hu
  obtain ⟨hpmem, hpne⟩ := mem_alistErase hp
  have hw := wf_socketId hwf hroom (show (p.1, p.2) ∈ room.users from hpmem)
  rw [← hpu]
  rw [show (p.1, p.2).snd = p.2 from rfl] at hw
  rw [hw]
  exact hpne

/-- C5: whenever a join-room call succeeds (a `room-joined` event is
emitted to the caller), the `existingUsers` snapshot it carries never
contains the joining connection, and it is exactly the room's member list
as it stood before the new member was inserted — the pre-call members
minus the joiner's own (possibly re-joined) entry, in their original join
order. -/
theorem claim_C5_join_snapshot_excludes_joiner
    (st : ServerState) (t sid : Nat)
    (data : Option JoinData) (code uname : Str) (l : List UserEntry)
    (hwf : wfB st = true) (hcons : consistentB st = true)
    (hmem : Emission.mk (.roomJoined code uname l) .caller
      ∈ (handle_join_room t sid data st).2) :
    (∀ u ∈ l, u.socketId ≠ sid) ∧
    ∃ room, alookup st.rooms code = some room ∧
      l = (alistErase room.users sid).map Prod.snd := by
  by_cases hgate : (check_rate_limit t sid st.rate_limits).1
  · exfalso
    simp [handle_join_room, hgate] at hmem
  cases data with
  | none => exfalso; simp [handle_join_room, hgate] at hmem
  | some d =>
    cases hrcv : getD d.roomCode with
    | vnone => exfalso; simp [handle_join_room, hgate, hrcv] at hmem
    | vother b => exfalso; simp [handle_join_room, hgate, hrcv] at hmem
    | vstr rcRaw =>
      by_cases hraw : rcRaw = []
      · exfalso; simp [handle_join_room, hgate, hrcv, hraw] at hmem
      by_cases hlen : (pyStrip (pyUpper rcRaw)).length ≠ 6
      · exfalso; simp [handle_join_room, hgate, hrcv, hraw, hlen] at hmem
      cases hsan : sanitize_username (getD d.username) with
      | error e =>
        exfalso
        simp [handle_join_room, hgate, hrcv, hraw, hlen, hsan] at hmem
      | ok username =>
        cases hroom : alookup st.rooms (pyStrip (pyUpper rcRaw)) with
        | none =>
          exfalso
          simp [handle_join_room, hgate, hrcv, hraw, hlen, hsan, hroom] at hmem
        | some room =>
          have histk : is_username_taken
              { st with rate_limits := (check_rate_limit t sid st.rate_limits).2 }
              (pyStrip (pyUpper rcRaw)) username sid =
              is_username_taken st (pyStrip (pyUpper rcRaw)) username sid := rfl
          by_cases hfull : room.users.length ≥ MAX_USERS_PER_ROOM
          · exfalso
            simp [handle_join_room, hgate, hrcv, hraw, hlen, hsan, hroom,
              hfull] at hmem
          by_cases htaken : is_username_taken st (pyStrip (pyUpper rcRaw))
              username sid
          · exfalso
            simp [handle_join_room, hgate, hrcv, hraw, hlen, hsan, hroom,
              hfull, histk, htaken] at hmem
          cases hud : alookup st.user_data sid with
          | none =>
            simp [handle_join_room, hgate, hrcv, hraw, hlen, hsan, hroom,
              hfull, histk, htaken, hud] at hmem
            obtain ⟨hc, -, hl⟩ := hmem
            subst hc
            have hnm := not_member_of_no_user_data hcons hud hroom
            have herase := alistErase_of_lookup_none hnm
            have hl' : l = (alistErase room.users sid).map Prod.snd := by
              rw [herase]
              exact hl
            refine ⟨?_, room, hroom, hl'⟩
            rw [hl']
            exact snapshot_no_self st _ room sid hwf hroom
          | some ud =>
            simp [handle_join_room, hgate, hrcv, hraw, hlen, hsan, hroom,
              hfull, histk, htaken, hud] at hmem
            by_cases hudc : ud.room_code = pyStrip (pyUpper rcRaw)
            · have hrcne6 : ud.room_code ≠ [] := by
                rw [hudc]
                intro hnil
                rw [hnil] at hlen
                simp at hlen
              have hr1 : alookup
                  ({ rooms := st.rooms, user_data := st.user_data,
                     rate_limits := (check_rate_limit t sid st.rate_limits).2 }
                    : ServerState).rooms ud.room_code = some room := by
                rw [hudc]
                exact hroom
              by_cases hempty : alistErase room.users sid = []
              · have hdel := leave_rooms_self_deleted t sid true
                  ({ rooms := st.rooms, user_data := st.user_data,
                     rate_limits := (check_rate_limit t sid st.rate_limits).2 })
                  ud room hud hrcne6 hr1 hempty
                rw [hudc] at hdel
                simp [hdel] at hmem
                rcases hmem with h | hmem
                · exfalso
                  obtain ⟨a, b, tg, habs⟩ :=
                    handle_user_leave_emissions t sid true _ _ h
                  simp at habs
                · obtain ⟨hc, -, hl⟩ := hmem
                  subst hc
                  refine ⟨?_, room, hroom, ?_⟩
                  · rw [hl]
                    simp
                  · rw [hl, hempty]
                    simp
              · have hkept := leave_rooms_self_kept t sid true
                  ({ rooms := st.rooms, user_data := st.user_data,
                     rate_limits := (check_rate_limit t sid st.rate_limits).2 })
                  ud room hud hrcne6 hr1 hempty
                rw [hudc] at hkept
                simp [hkept] at hmem
                rcases hmem with h | hmem
                · exfalso
                  obtain ⟨a, b, tg, habs⟩ :=
                    handle_user_leave_emissions t sid true _ _ h
                  simp at habs
                · obtain ⟨hc, -, hl⟩ := hmem
                  subst hc
                  have hl' : l = (alistErase room.users sid).map Prod.snd := hl
                  refine ⟨?_, room, hroom, hl'⟩
                  rw [hl']
                  exact snapshot_no_self st _ room sid hwf hroom
            · have hne' : pyStrip (pyUpper rcRaw) ≠ ud.room_code :=
                fun h => hudc h.symm
              have hother := leave_rooms_other t sid true
                ({ rooms := st.rooms, user_data := st.user_data,
                   rate_limits := (check_rate_limit t sid st.rate_limits).2 })
                ud hud (pyStrip (pyUpper rcRaw)) hne'
              have hother2 : alookup (handle_user_leave t sid true
                  ({ rooms := st.rooms, user_data := st.user_data,
                     rate_limits := (check_rate_limit t sid st.rate_limits).2 })
                  ).1.rooms (pyStrip (pyUpper rcRaw)) = some room := by
                rw [hother]
                exact hroom
              simp [hother2] at hmem
              rcases hmem with h | hmem
              · exfalso
                obtain ⟨a, b, tg, habs⟩ :=
                  handle_user_leave_emissions t sid true _ _ h
                simp at habs
              · obtain ⟨hc, -, hl⟩ := hmem
                subst hc
                have hnm := not_member_of_other_room hcons hud
                  (fun h => hudc h) hroom
                have herase := alistErase_of_lookup_none hnm
                have hl' : l = (alistErase room.users sid).map Prod.snd := by
                  rw [herase]
                  exact hl
                refine ⟨?_, room, hroom, hl'⟩
                rw [hl']
                exact snapshot_no_self st _ room sid hwf hroom

/-- Witness for C5: Carol (connection 3) joins the room of Alice and Bob;
the snapshot is [Alice, Bob] in join order and does not contain Carol. -/
theorem claim_C5_witness :
    (∀ u ∈ [UserEntry.mk "Alice".data 1 false,
            UserEntry.mk "Bob".data 2 false], u.socketId ≠ 3) ∧
    ∃ room, alookup stateAliceBob.rooms codeA = some room ∧
      [UserEntry.mk "Alice".data 1 false, UserEntry.mk "Bob".data 2 false] =
        (alistErase room.users 3).map Prod.snd :=
  claim_C5_join_snapshot_excludes_joiner stateAliceBob 200 3
    (some ⟨some (.vstr codeA), some (.vstr "Carol".data)⟩) codeA "Carol".data
    [⟨"Alice".data, 1, false⟩, ⟨"Bob".data, 2, false⟩]
    (by decide) (by decide) (by decide)

end RipChat
